import Mathlib

set_option linter.unusedVariables false

/-!
Shallow embedding of the asset-registry operations of
`projeto_final_bd_nosql.py`.  A MongoDB collection is a list of asset
documents; each store primitive is given its MongoDB semantics, and a
boolean flag per store call injects a store-level failure (a pymongo
exception) at that call site.  Functions keep the source's names.
-/

/-- One entry of an asset's `movement_history` array (source lines 92-99,
157-164 and 182-186).  The entry that `editar_documento` builds starts
without `from_location`/`to_location` keys, so those fields are options. -/
structure MovementEntry where
  date : String
  type : String
  from_location : Option String
  to_location : Option String
  responsible : String
deriving DecidableEq

/-- An asset document of the `bens` collection (source lines 81-100). -/
structure Asset where
  asset_id : String
  asset_name : String
  category : String
  brand : String
  description : String
  location : String
  status : String
  acquisition_date : String
  movement_history : List MovementEntry
deriving DecidableEq

/-- A parsed CSV row as consumed by the import (columns read at source
lines 83-87; the `row.get(col, "")` defaulting happens upstream of the
registry, so the fields are plain strings here). -/
structure CsvRow where
  product_id : String
  product_name : String
  category : String
  brand : String
  description : String
deriving DecidableEq

/-- A store-level failure (a pymongo exception). -/
inductive StoreErr where
  | err
deriving DecidableEq

/-- The console lines the registry prints, with their interpolated data. -/
inductive Msg where
  | csvNotFound
  | csvLoaded (total : Nat)
  | processingHead (n : Nat)
  | processingAll (n : Nat)
  | imported (n : Nat)
  | nothingToImport
  | importError
  | insertedExtra (n : Nat)
  | insertError
  | updatingLocation (asset_id old new : String)
  | updatingStatus (asset_id old new : String)
  | editSuccess (asset_id : String)
  | editNotFound (asset_id : String)
  | editError
  | deleted (asset_id : String)
  | deleteNotFound (asset_id : String)
  | deleteError
  | docsFound (n : Nat)
  | noDocsFound
  | findError
  | aggLine (location : String) (count : Nat)
  | aggEmpty
  | aggError
deriving DecidableEq

instance {ε α : Type} [DecidableEq ε] [DecidableEq α] : DecidableEq (Except ε α) :=
  fun x y =>
    match x, y with
    | .ok a, .ok b =>
      if h : a = b then isTrue (by rw [h]) else isFalse (by intro he; cases he; exact h rfl)
    | .error a, .error b =>
      if h : a = b then isTrue (by rw [h]) else isFalse (by intro he; cases he; exact h rfl)
    | .ok _, .error _ => isFalse (by intro he; cases he)
    | .error _, .ok _ => isFalse (by intro he; cases he)

/-- Python truthiness of an optional string argument (`if new_location:`):
`None` and the empty string are falsy. -/
def truthy : Option String → Bool
  | none => false
  | some s => s != ""

/-- The document built from one CSV row (source lines 81-100). -/
def csvRowToDoc (row : CsvRow) : Asset :=
  { asset_id := row.product_id
    asset_name := row.product_name
    category := row.category
    brand := row.brand
    description := row.description
    location := "Armazenagem Principal"
    status := "Em Uso"
    acquisition_date := "2023-01-01"
    movement_history := [
      { date := "2023-01-01 00:00:00"
        type := "Aquisição"
        from_location := some "Fornecedor"
        to_location := some "Armazenagem Principal"
        responsible := "Sistema Inicial" }] }

/-- Result of `importar_csv_para_mongodb`: the new collection contents,
the printed lines, and the Python return value (which is always `None`:
the function only prints the inserted count). -/
structure ImportOut where
  coll : List Asset
  log : List Msg
  ret : Option Nat
deriving DecidableEq

/-- Embedding of `importar_csv_para_mongodb` (source lines 51-112).
`fileExists` models `os.path.exists`; `failDelete`/`failInsert` inject a
store failure at `delete_many`/`insert_many` (both inside the `try`, so
the failure is caught and logged; a failure of `insert_many` after a
successful `delete_many` leaves the collection cleared).  The collection
is cleared only when the mapped document list is non-empty, and the
function returns `None` on every path. -/
def importar_csv_para_mongodb (coll : List Asset) (rows : List CsvRow)
    (num_registros : Nat) (fileExists failDelete failInsert : Bool) :
    Except StoreErr ImportOut :=
  if !fileExists then
    .ok ⟨coll, [Msg.csvNotFound], none⟩
  else
    let sampleMsg := if rows.length > num_registros then Msg.processingHead num_registros
      else Msg.processingAll rows.length
    let df_sample := if rows.length > num_registros then rows.take num_registros else rows
    let documents := df_sample.map csvRowToDoc
    let log0 := [Msg.csvLoaded rows.length, sampleMsg]
    if documents.isEmpty then
      .ok ⟨coll, log0 ++ [Msg.nothingToImport], none⟩
    else if failDelete then
      .ok ⟨coll, log0 ++ [Msg.importError], none⟩
    else if failInsert then
      .ok ⟨[], log0 ++ [Msg.importError], none⟩
    else
      .ok ⟨documents, log0 ++ [Msg.imported documents.length], none⟩

/-- Decimal rendering of a natural number, as Python string formatting
inside an f-string produces for a nonnegative int. -/
def natToDec (n : Nat) : String :=
  if n = 0 then "0" else ((Nat.digits 10 n).reverse.map Nat.digitChar).asString

/-- The i-th extra document generated by `inserir_documento_extra`
(source lines 146-165); `m` is the collection's document count as read by
`count_documents` while the collection is still unchanged (the inserts
happen only after the generation loop). -/
def newAssetDoc (m i : Nat) : Asset :=
  { asset_id := "NEWASSET" ++ natToDec (m + 1 + i)
    asset_name := "Item Teste " ++ natToDec (i + 1)
    category := "Eletrônico"
    brand := "Genérica"
    description := "Descrição do Item Teste " ++ natToDec (i + 1) ++ " para demonstração."
    location := "Laboratório 101"
    status := "Ativo"
    acquisition_date := "2024-05-15"
    movement_history := [
      { date := "2024-05-15 10:00:00"
        type := "Aquisição"
        from_location := some "Fornecedor"
        to_location := some "Laboratório 101"
        responsible := "Administrador" }] }

/-- Result of `inserir_documento_extra`: new collection contents, printed
lines, and the returned list of inserted ids (Mongo object ids are
abstracted by the documents' asset ids). -/
structure InsertOut where
  coll : List Asset
  log : List Msg
  ret : List String
deriving DecidableEq

/-- Embedding of `inserir_documento_extra` (source lines 139-173).  The
id-generating loop calls `count_documents` outside the `try`, so a store
failure there propagates (that call is only reached when `num_docs ≥ 1`);
`insert_many` is inside the `try`, and pymongo raises on an empty
document list, so with `num_docs = 0` the insert fails and is caught,
returning the empty list. -/
def inserir_documento_extra (coll : List Asset) (num_docs : Nat)
    (failCount failInsert : Bool) : Except StoreErr InsertOut :=
  if failCount && num_docs != 0 then
    .error .err
  else
    let new_assets := (List.range num_docs).map (newAssetDoc coll.length)
    if failInsert || new_assets.isEmpty then
      .ok ⟨coll, [Msg.insertError], []⟩
    else
      .ok ⟨coll ++ new_assets, [Msg.insertedExtra new_assets.length],
        new_assets.map (fun a => a.asset_id)⟩

/-- The `update_fields` dictionary built by `editar_documento` before the
store write (source lines 180, 192, 201). -/
structure UpdateFields where
  location : Option String
  status : Option String
deriving DecidableEq

/-- Effect of the update document on one matched asset: `$set` of the
collected fields plus `$push` of the movement entry (source lines
212-218). -/
def applyUpdate (f : UpdateFields) (e : MovementEntry) (a : Asset) : Asset :=
  { a with
    location := f.location.getD a.location
    status := f.status.getD a.status
    movement_history := a.movement_history ++ [e] }

/-- MongoDB `update_one` on the `asset_id` filter: updates the first
matching document, returning the new collection and `modified_count`. -/
def update_one : List Asset → String → UpdateFields → MovementEntry →
    List Asset × Nat
  | [], _, _, _ => ([], 0)
  | a :: rest, aid, f, e =>
    if a.asset_id = aid then (applyUpdate f e a :: rest, 1)
    else
      let r := update_one rest aid f e
      (a :: r.1, r.2)

/-- Result of `editar_documento`: new collection contents and printed
lines (the Python function returns `None`). -/
structure EditOut where
  coll : List Asset
  log : List Msg
deriving DecidableEq

/-- Embedding of `editar_documento` (source lines 175-224).  `now` is the
formatted current time.  The `find_one` pre-reads at lines 190 and 199
happen before the `try` block, so with `failFind` the call propagates the
store error whenever either branch runs; `failUpdate` injects a failure
at `update_one`, which is caught.  MongoDB rejects an update whose `$set`
document is empty with a FailedToParse error, so the call with no truthy
field argument fails inside the `try` and is caught, writing nothing. -/
def editar_documento (coll : List Asset) (asset_id : String)
    (new_location new_status : Option String) (now : String)
    (failFind failUpdate : Bool) : Except StoreErr EditOut :=
  if (truthy new_location || truthy new_status) && failFind then
    .error .err
  else
    let found := coll.find? (fun a => a.asset_id == asset_id)
    let foundLoc := match found with
      | some a => a.location
      | none => "Desconhecida"
    let foundStatus := match found with
      | some a => a.status
      | none => "Desconhecido"
    let update_fields : UpdateFields :=
      ⟨if truthy new_location then new_location else none,
       if truthy new_status then new_status else none⟩
    let movement_entry : MovementEntry :=
      if truthy new_location then
        ⟨now, "Movimentação", some foundLoc, new_location, "Usuário App"⟩
      else if truthy new_status then
        ⟨now,
         "Atualização de Status: " ++ foundStatus ++ " para " ++ new_status.getD "",
         some foundLoc, some foundLoc, "Usuário App"⟩
      else
        ⟨now, "Movimentação", none, none, "Usuário App"⟩
    let log1 : List Msg :=
      (if truthy new_location then
        [Msg.updatingLocation asset_id foundLoc (new_location.getD "")] else []) ++
      (if truthy new_status then
        [Msg.updatingStatus asset_id foundStatus (new_status.getD "")] else [])
    if failUpdate then
      .ok ⟨coll, log1 ++ [Msg.editError]⟩
    else if update_fields.location = none ∧ update_fields.status = none then
      .ok ⟨coll, log1 ++ [Msg.editError]⟩
    else
      let r := update_one coll asset_id update_fields movement_entry
      if r.2 > 0 then
        .ok ⟨r.1, log1 ++ [Msg.editSuccess asset_id]⟩
      else
        .ok ⟨r.1, log1 ++ [Msg.editNotFound asset_id]⟩

/-- MongoDB `delete_one` on the `asset_id` filter: removes the first
matching document, returning the new collection and `deleted_count`. -/
def delete_one : List Asset → String → List Asset × Nat
  | [], _ => ([], 0)
  | a :: rest, aid =>
    if a.asset_id = aid then (rest, 1)
    else
      let r := delete_one rest aid
      (a :: r.1, r.2)

/-- Result of `excluir_documento`: new collection contents and printed
lines. -/
structure DeleteOut where
  coll : List Asset
  log : List Msg
deriving DecidableEq

/-- Embedding of `excluir_documento` (source lines 244-255); the
`delete_one` call is inside the `try`, so a failure is caught and the
collection is left unchanged. -/
def excluir_documento (coll : List Asset) (asset_id : String)
    (failDelete : Bool) : Except StoreErr DeleteOut :=
  if failDelete then
    .ok ⟨coll, [Msg.deleteError]⟩
  else
    let r := delete_one coll asset_id
    if r.2 > 0 then .ok ⟨r.1, [Msg.deleted asset_id]⟩
    else .ok ⟨r.1, [Msg.deleteNotFound asset_id]⟩

/-- Embedding of `buscar_todos_documentos` (source lines 226-242); the
`find` runs inside the `try`, so a failure is caught and the empty list
is returned. -/
def buscar_todos_documentos (coll : List Asset) (failFind : Bool) :
    Except StoreErr (List Asset × List Msg) :=
  if failFind then .ok ⟨[], [Msg.findError]⟩
  else if coll.isEmpty then .ok ⟨[], [Msg.noDocsFound]⟩
  else .ok ⟨coll, [Msg.docsFound coll.length]⟩

/-- One step of the `$group` accumulator: bump the count of `key`,
inserting it with count 1 if absent. -/
def bump : List (String × Nat) → String → List (String × Nat)
  | [], key => [(key, 1)]
  | (k, n) :: rest, key =>
    if k = key then (k, n + 1) :: rest
    else (k, n) :: bump rest key

/-- The `$group` stage keyed on `location` with `$sum: 1` (MongoDB fixes
no order on the emitted groups; the pipeline sorts them afterwards). -/
def groupByLocation : List Asset → List (String × Nat)
  | [] => []
  | a :: rest => bump (groupByLocation rest) a.location

/-- Insertion into a list kept in descending order of count (the `$sort`
stage on `count: -1`; MongoDB fixes no order between equal counts). -/
def insertCountDesc (p : String × Nat) : List (String × Nat) → List (String × Nat)
  | [] => [p]
  | q :: rest =>
    if q.2 ≤ p.2 then p :: q :: rest
    else q :: insertCountDesc p rest

/-- The `$sort` stage on `count: -1`. -/
def sortCountDesc : List (String × Nat) → List (String × Nat)
  | [] => []
  | p :: rest => insertCountDesc p (sortCountDesc rest)

/-- Embedding of `contar_bens_por_localizacao` (source lines 329-350):
the `$group`/`$sort` aggregation pipeline, run fully inside the `try`, so
a failure is caught and the empty list is returned. -/
def contar_bens_por_localizacao (coll : List Asset) (failAgg : Bool) :
    Except StoreErr (List (String × Nat) × List Msg) :=
  if failAgg then .ok ⟨[], [Msg.aggError]⟩
  else
    let results := sortCountDesc (groupByLocation coll)
    if results.isEmpty then .ok ⟨[], [Msg.aggEmpty]⟩
    else .ok ⟨results, results.map (fun p => Msg.aggLine p.1 p.2)⟩

/-- Every asset of the collection has a non-empty movement history. -/
def histNonEmpty (coll : List Asset) : Prop :=
  ∀ a ∈ coll, a.movement_history ≠ []

/-- Number of documents of the collection at a given location. -/
def countLoc (coll : List Asset) (loc : String) : Nat :=
  (coll.filter (fun a => a.location == loc)).length

/-- Count associated to a key in a `$group` accumulator list
(0 when the key is absent). -/
def getCnt (l : List (String × Nat)) (key : String) : Nat :=
  match l.find? (fun p => p.1 == key) with
  | some p => p.2
  | none => 0

/-- The keys of a `$group` accumulator list are pairwise distinct. -/
def keysDistinct (l : List (String × Nat)) : Prop :=
  List.Pairwise (fun p q => p.1 ≠ q.1) l

/-- Counts appear in descending order, as the `$sort` stage on
`count: -1` must produce. -/
def descByCount (l : List (String × Nat)) : Prop :=
  List.Pairwise (fun p q => q.2 ≤ p.2) l

/-- A concrete asset used in witness instances. -/
def testAsset : Asset :=
  ⟨"A100", "Projetor", "Eletrônico", "Marca X", "projetor da sala", "Sala 1", "Em Uso",
   "2023-01-01",
   [⟨"2023-01-01 00:00:00", "Aquisição", some "Fornecedor", some "Sala 1", "Sistema Inicial"⟩]⟩

/-- A concrete CSV row used in witness instances. -/
def testRow : CsvRow := ⟨"789100", "Caneta", "Escritório", "BIC", "caneta azul"⟩

/-- A concrete asset at a given location, used in the aggregation example. -/
def assetAt (i loc : String) : Asset :=
  ⟨i, "Item", "Categoria", "Marca", "d", loc, "Em Uso", "2023-01-01",
   [⟨"2023-01-01 00:00:00", "Aquisição", some "Fornecedor", some loc, "Sistema Inicial"⟩]⟩

theorem find?_append_cons (pre post : List Asset) (a : Asset) (aid : String)
    (ha : a.asset_id = aid) (hpre : ∀ b ∈ pre, b.asset_id ≠ aid) :
    (pre ++ a :: post).find? (fun x => x.asset_id == aid) = some a := by
  induction pre with
  | nil => simp [List.find?, ha]
  | cons b rest ih =>
    have hb : (b.asset_id == aid) = false := by
      simpa using hpre b (by simp)
    simpa [List.find?, hb] using ih (fun c hc => hpre c (by simp [hc]))

theorem find?_not_found (coll : List Asset) (aid : String)
    (h : ∀ b ∈ coll, b.asset_id ≠ aid) :
    coll.find? (fun x => x.asset_id == aid) = none := by
  induction coll with
  | nil => rfl
  | cons b rest ih =>
    have hb : (b.asset_id == aid) = false := by
      simpa using h b (by simp)
    simpa [List.find?, hb] using ih (fun c hc => h c (by simp [hc]))

theorem update_one_not_found (coll : List Asset) (aid : String) (f : UpdateFields)
    (e : MovementEntry) (h : ∀ b ∈ coll, b.asset_id ≠ aid) :
    update_one coll aid f e = (coll, 0) := by
  induction coll with
  | nil => rfl
  | cons b rest ih =>
    have hb : ¬ (b.asset_id = aid) := h b (by simp)
    simp [update_one, hb, ih (fun c hc => h c (by simp [hc]))]

theorem update_one_found (pre post : List Asset) (a : Asset) (aid : String)
    (f : UpdateFields) (e : MovementEntry) (ha : a.asset_id = aid)
    (hpre : ∀ b ∈ pre, b.asset_id ≠ aid) :
    update_one (pre ++ a :: post) aid f e = (pre ++ applyUpdate f e a :: post, 1) := by
  induction pre with
  | nil => simp [update_one, ha]
  | cons b rest ih =>
    have hb : ¬ (b.asset_id = aid) := hpre b (by simp)
    have ih2 := ih (fun c hc => hpre c (by simp [hc]))
    simp [update_one, hb, ih2]

theorem update_one_cases (coll : List Asset) (aid : String) (f : UpdateFields)
    (e : MovementEntry) :
    (update_one coll aid f e = (coll, 0)) ∨
    ∃ pre a post, coll = pre ++ a :: post ∧
      update_one coll aid f e = (pre ++ applyUpdate f e a :: post, 1) := by
  induction coll with
  | nil => exact Or.inl rfl
  | cons b rest ih =>
    by_cases hb : b.asset_id = aid
    · exact Or.inr ⟨[], b, rest, by simp, by simp [update_one, hb]⟩
    · cases ih with
      | inl h => exact Or.inl (by simp [update_one, hb, h])
      | inr h =>
        obtain ⟨pre, a, post, hdec, hupd⟩ := h
        exact Or.inr ⟨b :: pre, a, post, by simp [hdec], by simp [update_one, hb, hupd]⟩

theorem delete_one_cases (coll : List Asset) (aid : String) :
    (delete_one coll aid = (coll, 0)) ∨
    ∃ pre a post, coll = pre ++ a :: post ∧
      delete_one coll aid = (pre ++ post, 1) := by
  induction coll with
  | nil => exact Or.inl rfl
  | cons b rest ih =>
    by_cases hb : b.asset_id = aid
    · exact Or.inr ⟨[], b, rest, by simp, by simp [delete_one, hb]⟩
    · cases ih with
      | inl h => exact Or.inl (by simp [delete_one, hb, h])
      | inr h =>
        obtain ⟨pre, a, post, hdec, hupd⟩ := h
        exact Or.inr ⟨b :: pre, a, post, by simp [hdec], by simp [delete_one, hb, hupd]⟩

/-- C4: edit called with neither `new_location` nor `new_status` logs one
status line (the caught-error line, since the store rejects the empty
`$set`) but performs no write: the collection, including every matched
asset's fields and movement history, is exactly as before the call. -/
theorem C4_noop_edit (coll : List Asset) (asset_id now : String)
    (failFind failUpdate : Bool) :
    editar_documento coll asset_id none none now failFind failUpdate =
      .ok ⟨coll, [Msg.editError]⟩ := by
  by_cases h : failUpdate = true <;> simp [editar_documento, truthy, h]


theorem truthy_not_none (o : Option String) (h : truthy o = true) : o ≠ none := by
  cases o <;> simp_all [truthy]

/-- C5: edit with both a new location and a new status on an existing
asset sets both fields and appends one entry of type "Movimentação" whose
`from_location` is the prior location and `to_location` the new location;
the entry type does not mention the statuses. -/
theorem C5_edit_both_fields (pre post : List Asset) (a : Asset) (l s now : String)
    (hpre : ∀ b ∈ pre, b.asset_id ≠ a.asset_id) (hl : l ≠ "") (hs : s ≠ "") :
    editar_documento (pre ++ a :: post) a.asset_id (some l) (some s) now false false =
      .ok ⟨pre ++
        ⟨a.asset_id, a.asset_name, a.category, a.brand, a.description, l, s,
          a.acquisition_date,
          a.movement_history ++ [⟨now, "Movimentação", some a.location, some l, "Usuário App"⟩]⟩ ::
        post,
       [Msg.updatingLocation a.asset_id a.location l,
        Msg.updatingStatus a.asset_id a.status s,
        Msg.editSuccess a.asset_id]⟩ := by
  have hfind := find?_append_cons pre post a a.asset_id rfl hpre
  have hupd := update_one_found pre post a a.asset_id ⟨some l, some s⟩
    ⟨now, "Movimentação", some a.location, some l, "Usuário App"⟩ rfl hpre
  simp [editar_documento, truthy, hl, hs, hfind, hupd, applyUpdate]

/-- C7: edit with only a new status on an existing asset sets the status,
leaves the location unchanged and appends exactly one entry whose
`from_location` and `to_location` both equal the unchanged location and
whose type spells out the old and the new status. -/
theorem C7_edit_status_only (pre post : List Asset) (a : Asset) (s now : String)
    (hpre : ∀ b ∈ pre, b.asset_id ≠ a.asset_id) (hs : s ≠ "") :
    editar_documento (pre ++ a :: post) a.asset_id none (some s) now false false =
      .ok ⟨pre ++
        ⟨a.asset_id, a.asset_name, a.category, a.brand, a.description, a.location, s,
          a.acquisition_date,
          a.movement_history ++
            [⟨now, "Atualização de Status: " ++ a.status ++ " para " ++ s,
              some a.location, some a.location, "Usuário App"⟩]⟩ ::
        post,
       [Msg.updatingStatus a.asset_id a.status s,
        Msg.editSuccess a.asset_id]⟩ := by
  have hfind := find?_append_cons pre post a a.asset_id rfl hpre
  have hupd := update_one_found pre post a a.asset_id ⟨none, some s⟩
    ⟨now, "Atualização de Status: " ++ a.status ++ " para " ++ s,
      some a.location, some a.location, "Usuário App"⟩ rfl hpre
  simp [editar_documento, truthy, hs, hfind, hupd, applyUpdate]

/-- C6: edit of an `asset_id` not present in the collection changes no
document, and when a truthy field argument is given the not-found line is
reported. -/
theorem C6_edit_missing_asset (coll : List Asset) (aid now : String)
    (new_location new_status : Option String)
    (h : ∀ b ∈ coll, b.asset_id ≠ aid) :
    ∃ log, editar_documento coll aid new_location new_status now false false =
        .ok ⟨coll, log⟩ ∧
      ((truthy new_location = true ∨ truthy new_status = true) →
        Msg.editNotFound aid ∈ log) := by
  have hfind := find?_not_found coll aid h
  have hupd : ∀ f e, update_one coll aid f e = (coll, 0) :=
    fun f e => update_one_not_found coll aid f e h
  by_cases hl : truthy new_location = true <;> by_cases hs : truthy new_status = true
  · have hl2 := truthy_not_none _ hl
    exact ⟨[Msg.updatingLocation aid "Desconhecida" (new_location.getD ""),
        Msg.updatingStatus aid "Desconhecido" (new_status.getD ""), Msg.editNotFound aid],
      by simp [editar_documento, hl, hs, hfind, hupd, hl2], fun _ => by simp⟩
  · have hl2 := truthy_not_none _ hl
    exact ⟨[Msg.updatingLocation aid "Desconhecida" (new_location.getD ""),
        Msg.editNotFound aid],
      by simp [editar_documento, hl, hs, hfind, hupd, hl2], fun _ => by simp⟩
  · have hs2 := truthy_not_none _ hs
    exact ⟨[Msg.updatingStatus aid "Desconhecido" (new_status.getD ""),
        Msg.editNotFound aid],
      by simp [editar_documento, hl, hs, hfind, hupd, hs2], fun _ => by simp⟩
  · exact ⟨[Msg.editError], by simp [editar_documento, hl, hs], fun hc => by
      rcases hc with hc | hc
      · exact absurd hc hl
      · exact absurd hc hs⟩

/-- Witness for C5 at a concrete collection and arguments. -/
theorem C5_edit_both_fields_witness :
    editar_documento [testAsset] testAsset.asset_id (some "Reitoria") (some "Em Manutenção")
        "2024-06-01 12:00:00" false false =
      .ok ⟨[⟨testAsset.asset_id, testAsset.asset_name, testAsset.category, testAsset.brand,
          testAsset.description, "Reitoria", "Em Manutenção", testAsset.acquisition_date,
          testAsset.movement_history ++
            [⟨"2024-06-01 12:00:00", "Movimentação", some testAsset.location, some "Reitoria",
              "Usuário App"⟩]⟩],
        [Msg.updatingLocation testAsset.asset_id testAsset.location "Reitoria",
         Msg.updatingStatus testAsset.asset_id testAsset.status "Em Manutenção",
         Msg.editSuccess testAsset.asset_id]⟩ :=
  C5_edit_both_fields [] [] testAsset "Reitoria" "Em Manutenção" "2024-06-01 12:00:00"
    (by simp) (by decide) (by decide)

/-- Witness for C6 at a concrete collection and arguments. -/
theorem C6_edit_missing_asset_witness :
    ∃ log, editar_documento [testAsset] "B999" (some "Reitoria") none
        "2024-06-01 12:00:00" false false = .ok ⟨[testAsset], log⟩ ∧
      ((truthy (some "Reitoria") = true ∨ truthy none = true) →
        Msg.editNotFound "B999" ∈ log) :=
  C6_edit_missing_asset [testAsset] "B999" "2024-06-01 12:00:00" (some "Reitoria") none
    (by decide)

/-- Witness for C7 at a concrete collection and arguments. -/
theorem C7_edit_status_only_witness :
    editar_documento [testAsset] testAsset.asset_id none (some "Desativado")
        "2024-06-01 12:00:00" false false =
      .ok ⟨[⟨testAsset.asset_id, testAsset.asset_name, testAsset.category, testAsset.brand,
          testAsset.description, testAsset.location, "Desativado", testAsset.acquisition_date,
          testAsset.movement_history ++
            [⟨"2024-06-01 12:00:00",
              "Atualização de Status: " ++ testAsset.status ++ " para Desativado",
              some testAsset.location, some testAsset.location, "Usuário App"⟩]⟩],
        [Msg.updatingStatus testAsset.asset_id testAsset.status "Desativado",
         Msg.editSuccess testAsset.asset_id]⟩ :=
  C7_edit_status_only [] [] testAsset "Desativado" "2024-06-01 12:00:00" (by simp) (by decide)


/-- Helper: truncating a non-empty row list to a positive limit gives a
non-empty list. -/
theorem take_ne_nil_of (rows : List CsvRow) (lim : Nat) (hrows : rows ≠ [])
    (hlim : 0 < lim) : rows.take lim ≠ [] := by
  simp [List.take_eq_nil_iff, hrows, Nat.pos_iff_ne_zero.mp hlim]


/-- Helper: the result of a fully successful import with an existing file
and a non-empty truncated row list. -/
theorem importar_success (coll : List Asset) (rows : List CsvRow) (lim : Nat)
    (h : rows.take lim ≠ []) :
    importar_csv_para_mongodb coll rows lim true false false =
      .ok ⟨(rows.take lim).map csvRowToDoc,
        [Msg.csvLoaded rows.length,
         if rows.length > lim then Msg.processingHead lim else Msg.processingAll rows.length,
         Msg.imported ((rows.take lim).map csvRowToDoc).length], none⟩ := by
  by_cases hgt : rows.length > lim
  · simp [importar_csv_para_mongodb, hgt, h]
    constructor
    · intro h0; exact h (by simp [h0])
    · intro h0; exact h (by simp [h0])
  · have heq : rows.take lim = rows := List.take_of_length_le (Nat.le_of_not_lt hgt)
    have hrows : rows ≠ [] := by
      intro hr; exact h (by simp [hr])
    simp [importar_csv_para_mongodb, hgt, heq, hrows]


/-- C1 counterexample: calling the import on the one-row source with
limit 0 (so the source has more rows than the limit) leaves the
pre-existing collection contents untouched: nothing is cleared and
nothing is inserted, contradicting the unconditional full-replace
reading. -/
theorem C1_counterexample :
    0 < [testRow].length ∧
    importar_csv_para_mongodb [testAsset] [testRow] 0 true false false =
      .ok ⟨[testAsset], [Msg.csvLoaded 1, Msg.processingHead 0, Msg.nothingToImport], none⟩ :=
  ⟨by decide, by decide⟩


/-- C1 amended: whenever the file exists, the store does not fail and the
truncated row list is non-empty (non-empty source and positive limit),
the import fully replaces the collection: the result is exactly the
mapped truncation of the source, independent of the prior contents, with
min(limit, source size) documents. -/
theorem C1_full_replace (coll : List Asset) (rows : List CsvRow) (lim : Nat)
    (hrows : rows ≠ []) (hlim : 0 < lim) :
    ∃ out, importar_csv_para_mongodb coll rows lim true false false = .ok out ∧
      out.coll = (rows.take lim).map csvRowToDoc ∧
      out.coll.length = min lim rows.length := by
  have h := take_ne_nil_of rows lim hrows hlim
  refine ⟨_, importar_success coll rows lim h, rfl, ?_⟩
  simp [List.length_take]


/-- Witness for C1 at a concrete prior collection and source. -/
theorem C1_full_replace_witness :
    ∃ out, importar_csv_para_mongodb [testAsset] [testRow] 5 true false false = .ok out ∧
      out.coll = ([testRow].take 5).map csvRowToDoc ∧
      out.coll.length = min 5 [testRow].length :=
  C1_full_replace [testAsset] [testRow] 5 (by decide) (by decide)


/-- C3 counterexample: a successful import that inserts one document
returns none, not the count 1. -/
theorem C3_counterexample :
    importar_csv_para_mongodb [] [testRow] 5 true false false =
      .ok ⟨[csvRowToDoc testRow], [Msg.csvLoaded 1, Msg.processingAll 1, Msg.imported 1], none⟩ ∧
    (none : Option Nat) ≠ some [csvRowToDoc testRow].length :=
  ⟨by decide, by decide⟩


/-- C3 amended: a successful import prints the count of inserted
documents but returns no value. -/
theorem C3_prints_count (coll : List Asset) (rows : List CsvRow) (lim : Nat)
    (hrows : rows ≠ []) (hlim : 0 < lim) :
    ∃ out, importar_csv_para_mongodb coll rows lim true false false = .ok out ∧
      Msg.imported out.coll.length ∈ out.log ∧ out.ret = none := by
  have h := take_ne_nil_of rows lim hrows hlim
  exact ⟨_, importar_success coll rows lim h, by simp, rfl⟩


/-- Witness for C3 at a concrete source. -/
theorem C3_prints_count_witness :
    ∃ out, importar_csv_para_mongodb [testAsset] [testRow] 5 true false false = .ok out ∧
      Msg.imported out.coll.length ∈ out.log ∧ out.ret = none :=
  C3_prints_count [testAsset] [testRow] 5 (by decide) (by decide)


/-- C2 counterexample: a store failure at the find-one pre-read of the
edit operation propagates out of the operation instead of being caught
and turned into a neutral result. -/
theorem C2_counterexample :
    editar_documento [testAsset] testAsset.asset_id (some "Reitoria") none
      "2024-06-01 12:00:00" true false = .error .err := by decide


/-- C2 amended: every operation catches store failures of the calls
inside its try block and returns an empty or neutral result (import
always returns normally; insert with a failing insert call returns the
empty id list and leaves the collection unchanged; edit with a failing
update call leaves the collection unchanged; delete, find-all and the
aggregation return no-op or empty results) — but the pre-reads outside
the try blocks propagate: the count read in the manual insert for any
positive count, and the find-one read in edit whenever a truthy field
argument is given. -/
theorem C2_catch_behavior :
    (∀ coll rows lim fe f1 f2, ∃ out,
        importar_csv_para_mongodb coll rows lim fe f1 f2 = .ok out) ∧
    (∀ coll n f2, ∃ out, inserir_documento_extra coll n false f2 = .ok out ∧
        (f2 = true → out.coll = coll ∧ out.ret = [])) ∧
    (∀ coll n f2, inserir_documento_extra coll (n + 1) true f2 = .error .err) ∧
    (∀ coll aid l s now f2, ∃ out, editar_documento coll aid l s now false f2 = .ok out ∧
        (f2 = true → out.coll = coll)) ∧
    (∀ coll aid l s now f2, (truthy l = true ∨ truthy s = true) →
        editar_documento coll aid l s now true f2 = .error .err) ∧
    (∀ coll aid, excluir_documento coll aid true = .ok ⟨coll, [Msg.deleteError]⟩) ∧
    (∀ coll, buscar_todos_documentos coll true = .ok ⟨[], [Msg.findError]⟩) ∧
    (∀ coll, contar_bens_por_localizacao coll true = .ok ⟨[], [Msg.aggError]⟩) := by
  refine ⟨?_, ?_, ?_, ?_, ?_, ?_, ?_, ?_⟩
  · intro coll rows lim fe f1 f2
    cases fe <;> cases f1 <;> cases f2 <;>
      simp only [importar_csv_para_mongodb] <;> split_ifs <;> exact ⟨_, rfl⟩
  · intro coll n f2
    cases f2
    · simp only [inserir_documento_extra]
      split_ifs with h1 h2
      · exact absurd h1 (by simp)
      · exact ⟨_, rfl, fun hc => by simp at hc⟩
      · exact ⟨_, rfl, fun hc => by simp at hc⟩
    · simp only [inserir_documento_extra]
      split_ifs with h1 h2
      · exact absurd h1 (by simp)
      · exact ⟨_, rfl, fun _ => ⟨rfl, rfl⟩⟩
      · exact absurd (by simp) h2
  · intro coll n f2
    simp [inserir_documento_extra]
  · intro coll aid l s now f2
    cases f2
    · have hok : ∃ out, editar_documento coll aid l s now false false = .ok out := by
        simp [editar_documento]
        split_ifs <;> exact ⟨_, rfl⟩
      obtain ⟨out, hout⟩ := hok
      exact ⟨out, hout, fun hc => by simp at hc⟩
    · have hok : ∃ log, editar_documento coll aid l s now false true = .ok ⟨coll, log⟩ := by
        simp [editar_documento]
      obtain ⟨log, hout⟩ := hok
      exact ⟨⟨coll, log⟩, hout, fun _ => rfl⟩
  · intro coll aid l s now f2 h
    have hcond : (truthy l || truthy s) = true := by
      rcases h with h | h <;> simp [h]
    simp [editar_documento, hcond]
  · intro coll aid
    simp [excluir_documento]
  · intro coll
    simp [buscar_todos_documentos]
  · intro coll
    simp [contar_bens_por_localizacao]


/-- Witness for the propagation conjunct of the C2 theorem at a concrete
input. -/
theorem C2_catch_behavior_witness :
    editar_documento [] "A100" (some "Reitoria") none "t" true false = .error .err :=
  C2_catch_behavior.2.2.2.2.1 [] "A100" (some "Reitoria") none "t" false (Or.inl (by decide))


/-- Helper: a store update (set plus history push on the first match)
preserves non-emptiness of every movement history. -/
theorem histNonEmpty_update_one (coll : List Asset) (aid : String) (f : UpdateFields)
    (e : MovementEntry) (h : histNonEmpty coll) :
    histNonEmpty (update_one coll aid f e).1 := by
  induction coll with
  | nil => simp [update_one, histNonEmpty]
  | cons b rest ih =>
    have hb := h b (by simp)
    have hrest : histNonEmpty rest := fun c hc => h c (by simp [hc])
    by_cases hid : b.asset_id = aid
    · intro c hc
      simp only [update_one, if_pos hid] at hc
      rcases List.mem_cons.mp hc with rfl | hc
      · simp [applyUpdate]
      · exact hrest c hc
    · intro c hc
      simp only [update_one, if_neg hid] at hc
      rcases List.mem_cons.mp hc with rfl | hc
      · exact hb
      · exact ih hrest c hc


/-- Helper: the collection produced by the store update either is the old
collection or differs from it in exactly one document, which got its
fields set and exactly one entry appended. -/
theorem update_one_decomp (coll : List Asset) (aid : String) (f : UpdateFields)
    (e : MovementEntry) :
    (update_one coll aid f e).1 = coll ∨
    ∃ pre a post f2 e2, coll = pre ++ a :: post ∧
      (update_one coll aid f e).1 = pre ++ applyUpdate f2 e2 a :: post := by
  rcases update_one_cases coll aid f e with h | ⟨pre, a, post, hdec, hupd⟩
  · exact Or.inl (by rw [h])
  · exact Or.inr ⟨pre, a, post, f, e, hdec, by rw [hupd]⟩


/-- Helper: the collection produced by the store delete either is the old
collection or is the old collection with exactly one document removed. -/
theorem delete_one_decomp (coll : List Asset) (aid : String) :
    (delete_one coll aid).1 = coll ∨
    ∃ pre a post, coll = pre ++ a :: post ∧ (delete_one coll aid).1 = pre ++ post := by
  rcases delete_one_cases coll aid with h | ⟨pre, a, post, hdec, hdel⟩
  · exact Or.inl (by rw [h])
  · exact Or.inr ⟨pre, a, post, hdec, by rw [hdel]⟩


/-- Helper: deleting a document preserves non-emptiness of every other
movement history. -/
theorem histNonEmpty_delete_one (coll : List Asset) (aid : String)
    (h : histNonEmpty coll) : histNonEmpty (delete_one coll aid).1 := by
  rcases delete_one_cases coll aid with hd | ⟨pre, a, post, hdec, hdel⟩
  · rw [hd]; exact h
  · rw [hdel]
    intro c hc
    apply h
    rw [hdec]
    rcases List.mem_append.mp hc with hc | hc
    · exact List.mem_append.mpr (Or.inl hc)
    · exact List.mem_append.mpr (Or.inr (List.mem_cons_of_mem a hc))


/-- C8: every operation preserves the history invariants: each asset
created by import or manual insert starts with the one-entry acquisition
history; import, insert, edit and delete keep every surviving asset's
history non-empty; edit either leaves the collection unchanged or
rewrites exactly one document to its field-updated version with exactly
one entry appended to its history (the other entries and documents are
untouched); delete only removes a whole document. -/
theorem C8_history_invariants :
    (∀ coll rows lim fe f1 f2 out,
        importar_csv_para_mongodb coll rows lim fe f1 f2 = .ok out →
        (∀ a ∈ out.coll, a ∈ coll ∨ ∃ row, a = csvRowToDoc row) ∧
        (histNonEmpty coll → histNonEmpty out.coll)) ∧
    (∀ row, (csvRowToDoc row).movement_history =
        [⟨"2023-01-01 00:00:00", "Aquisição", some "Fornecedor",
          some "Armazenagem Principal", "Sistema Inicial"⟩]) ∧
    (∀ coll n f1 f2 out, inserir_documento_extra coll n f1 f2 = .ok out →
        (out.coll = coll ∨
         out.coll = coll ++ (List.range n).map (newAssetDoc coll.length)) ∧
        (histNonEmpty coll → histNonEmpty out.coll)) ∧
    (∀ m i, (newAssetDoc m i).movement_history =
        [⟨"2024-05-15 10:00:00", "Aquisição", some "Fornecedor",
          some "Laboratório 101", "Administrador"⟩]) ∧
    (∀ coll aid l s now f1 f2 out, editar_documento coll aid l s now f1 f2 = .ok out →
        (out.coll = coll ∨ ∃ pre a post f e, coll = pre ++ a :: post ∧
          out.coll = pre ++ applyUpdate f e a :: post) ∧
        (histNonEmpty coll → histNonEmpty out.coll)) ∧
    (∀ coll aid f1 out, excluir_documento coll aid f1 = .ok out →
        (out.coll = coll ∨ ∃ pre a post, coll = pre ++ a :: post ∧ out.coll = pre ++ post) ∧
        (histNonEmpty coll → histNonEmpty out.coll)) := by
  refine ⟨?_, fun row => rfl, ?_, fun m i => rfl, ?_, ?_⟩
  · intro coll rows lim fe f1 f2 out hout
    simp only [importar_csv_para_mongodb] at hout
    split_ifs at hout
    all_goals first
      | exact Except.noConfusion hout
      | (simp only [Except.ok.injEq] at hout
         subst hout
         exact ⟨fun a ha => Or.inl ha, fun h => h⟩)
      | (simp only [Except.ok.injEq] at hout
         subst hout
         exact ⟨fun a ha => absurd ha (List.not_mem_nil a),
           fun _ a ha => absurd ha (List.not_mem_nil a)⟩)
      | (simp only [Except.ok.injEq] at hout
         subst hout
         constructor
         · intro a ha
           simp only [List.mem_map] at ha
           obtain ⟨row, hrow, rfl⟩ := ha
           exact Or.inr ⟨row, rfl⟩
         · intro _ a ha
           simp only [List.mem_map] at ha
           obtain ⟨row, hrow, rfl⟩ := ha
           simp [csvRowToDoc])
  · intro coll n f1 f2 out hout
    simp only [inserir_documento_extra] at hout
    split_ifs at hout
    all_goals first
      | exact Except.noConfusion hout
      | (simp only [Except.ok.injEq] at hout
         subst hout
         exact ⟨Or.inl rfl, fun h => h⟩)
      | (simp only [Except.ok.injEq] at hout
         subst hout
         refine ⟨Or.inr rfl, fun h a ha => ?_⟩
         rcases List.mem_append.mp ha with ha | ha
         · exact h a ha
         · obtain ⟨i, hi, rfl⟩ := List.mem_map.mp ha
           simp [newAssetDoc])
  · intro coll aid l s now f1 f2 out hout
    simp only [editar_documento] at hout
    split_ifs at hout
    all_goals first
      | exact Except.noConfusion hout
      | (simp only [Except.ok.injEq] at hout
         subst hout
         exact ⟨Or.inl rfl, fun h => h⟩)
      | (simp only [Except.ok.injEq] at hout
         subst hout
         exact ⟨update_one_decomp coll aid _ _,
           fun h => histNonEmpty_update_one coll aid _ _ h⟩)
  · intro coll aid f1 out hout
    simp only [excluir_documento] at hout
    split_ifs at hout
    all_goals first
      | exact Except.noConfusion hout
      | (simp only [Except.ok.injEq] at hout
         subst hout
         exact ⟨Or.inl rfl, fun h => h⟩)
      | (simp only [Except.ok.injEq] at hout
         subst hout
         exact ⟨delete_one_decomp coll aid,
           fun h => histNonEmpty_delete_one coll aid h⟩)


/-- Witness for C8 applied to a concrete import call. -/
theorem C8_history_invariants_witness :
    (∀ a ∈ ([csvRowToDoc testRow] : List Asset),
        a ∈ [testAsset] ∨ ∃ row, a = csvRowToDoc row) ∧
    histNonEmpty [csvRowToDoc testRow] :=
  ⟨(C8_history_invariants.1 [testAsset] [testRow] 5 true false false
      ⟨[csvRowToDoc testRow], [Msg.csvLoaded 1, Msg.processingAll 1, Msg.imported 1], none⟩
      (by decide)).1,
   (C8_history_invariants.1 [testAsset] [testRow] 5 true false false
      ⟨[csvRowToDoc testRow], [Msg.csvLoaded 1, Msg.processingAll 1, Msg.imported 1], none⟩
      (by decide)).2 (by unfold histNonEmpty; decide)⟩


/-- Helper: bumping a key increments that key's count. -/
theorem getCnt_bump_self (l : List (String × Nat)) (key : String) :
    getCnt (bump l key) key = getCnt l key + 1 := by
  induction l with
  | nil => simp [bump, getCnt, List.find?]
  | cons p rest ih =>
    obtain ⟨k, n⟩ := p
    by_cases hk : k = key
    · simp [bump, hk, getCnt, List.find?]
    · have hbeq : (k == key) = false := by simp [hk]
      simp only [bump, if_neg hk]
      simp only [getCnt, List.find?, hbeq] at ih ⊢
      exact ih


/-- Helper: bumping a key leaves every other count unchanged. -/
theorem getCnt_bump_ne (l : List (String × Nat)) (key key2 : String) (h : key2 ≠ key) :
    getCnt (bump l key) key2 = getCnt l key2 := by
  have hbeq : (key == key2) = false := by simp [Ne.symm h]
  induction l with
  | nil => simp [bump, getCnt, List.find?, hbeq]
  | cons p rest ih =>
    obtain ⟨k, n⟩ := p
    by_cases hk : k = key
    · subst hk
      simp [bump, getCnt, List.find?, hbeq]
    · simp only [bump, if_neg hk]
      by_cases hk2 : k = key2
      · simp [getCnt, List.find?, hk2]
      · have hbeq2 : (k == key2) = false := by simp [hk2]
        simp only [getCnt, List.find?, hbeq2] at ih ⊢
        exact ih


/-- Helper: a key of the bumped accumulator is the bumped key or an old
key. -/
theorem keys_bump_sub (l : List (String × Nat)) (key : String) (q : String × Nat)
    (hq : q ∈ bump l key) : q.1 = key ∨ q.1 ∈ l.map Prod.fst := by
  induction l with
  | nil => simp [bump] at hq; simp [hq]
  | cons p rest ih =>
    obtain ⟨k, n⟩ := p
    by_cases hk : k = key
    · simp only [bump, if_pos hk] at hq
      rcases List.mem_cons.mp hq with rfl | hq
      · exact Or.inl hk
      · right
        simp only [List.map_cons, List.mem_cons]
        exact Or.inr (List.mem_map_of_mem Prod.fst hq)
    · simp only [bump, if_neg hk] at hq
      rcases List.mem_cons.mp hq with rfl | hq
      · right; simp
      · rcases ih hq with h | h
        · exact Or.inl h
        · right; simp only [List.map_cons, List.mem_cons]; exact Or.inr h


/-- Helper: bumping preserves distinctness of the accumulator keys. -/
theorem keysDistinct_bump (l : List (String × Nat)) (key : String)
    (h : keysDistinct l) : keysDistinct (bump l key) := by
  induction l with
  | nil => simp [bump, keysDistinct]
  | cons p rest ih =>
    obtain ⟨k, n⟩ := p
    obtain ⟨h1, h2⟩ := List.pairwise_cons.mp h
    by_cases hk : k = key
    · simp only [bump, if_pos hk, keysDistinct]
      exact List.pairwise_cons.mpr ⟨h1, h2⟩
    · simp only [bump, if_neg hk, keysDistinct]
      refine List.pairwise_cons.mpr ⟨?_, ih h2⟩
      intro q hq
      rcases keys_bump_sub rest key q hq with hqk | hqk
      · rw [hqk]; exact hk
      · obtain ⟨r, hr, hrq⟩ := List.mem_map.mp hqk
        rw [← hrq]
        exact h1 r hr


/-- Helper: bumping preserves positivity of the accumulated counts. -/
theorem bump_pos (l : List (String × Nat)) (key : String)
    (h : ∀ p ∈ l, 0 < p.2) : ∀ p ∈ bump l key, 0 < p.2 := by
  induction l with
  | nil => intro p hp; simp [bump] at hp; simp [hp]
  | cons q rest ih =>
    obtain ⟨k, n⟩ := q
    intro p hp
    by_cases hk : k = key
    · simp only [bump, if_pos hk] at hp
      rcases List.mem_cons.mp hp with rfl | hp
      · simp
      · exact h p (by simp [hp])
    · simp only [bump, if_neg hk] at hp
      rcases List.mem_cons.mp hp with rfl | hp
      · exact h (k, n) (by simp)
      · exact ih (fun r hr => h r (by simp [hr])) p hp


/-- Helper: after bumping a key, the key is present. -/
theorem bump_mem_key (l : List (String × Nat)) (key : String) :
    ∃ p ∈ bump l key, p.1 = key := by
  induction l with
  | nil => exact ⟨(key, 1), by simp [bump]⟩
  | cons q rest ih =>
    obtain ⟨k, n⟩ := q
    by_cases hk : k = key
    · exact ⟨(k, n + 1), by simp [bump, hk]⟩
    · obtain ⟨p, hp, hpk⟩ := ih
      exact ⟨p, by simp only [bump, if_neg hk]; exact List.mem_cons_of_mem _ hp, hpk⟩


/-- Helper: every key present before a bump is present after it. -/
theorem bump_mem_keep (l : List (String × Nat)) (key : String) (p : String × Nat)
    (hp : p ∈ l) : ∃ q ∈ bump l key, q.1 = p.1 := by
  induction l with
  | nil => simp at hp
  | cons r rest ih =>
    obtain ⟨k, n⟩ := r
    by_cases hk : k = key
    · simp only [bump, if_pos hk]
      rcases List.mem_cons.mp hp with rfl | hp
      · exact ⟨(k, n + 1), by simp⟩
      · exact ⟨p, List.mem_cons_of_mem _ hp, rfl⟩
    · simp only [bump, if_neg hk]
      rcases List.mem_cons.mp hp with rfl | hp
      · exact ⟨(k, n), by simp⟩
      · obtain ⟨q, hq, hqp⟩ := ih hp
        exact ⟨q, List.mem_cons_of_mem _ hq, hqp⟩


/-- Helper: with distinct keys, each pair of the accumulator carries
exactly the count associated to its key. -/
theorem getCnt_mem (l : List (String × Nat)) (h : keysDistinct l) :
    ∀ p ∈ l, p.2 = getCnt l p.1 := by
  induction l with
  | nil => simp
  | cons q rest ih =>
    obtain ⟨k, n⟩ := q
    obtain ⟨h1, h2⟩ := List.pairwise_cons.mp h
    intro p hp
    rcases List.mem_cons.mp hp with rfl | hp
    · simp [getCnt, List.find?]
    · have hne : (k == p.1) = false := by simp [h1 p hp]
      simp only [getCnt, List.find?, hne]
      exact ih h2 p hp


/-- Helper: unfolding the per-location document count over a cons. -/
theorem countLoc_cons (a : Asset) (rest : List Asset) (loc : String) :
    countLoc (a :: rest) loc =
      countLoc rest loc + (if a.location = loc then 1 else 0) := by
  by_cases h : a.location = loc
  · simp [countLoc, List.filter, h, Nat.add_comm]
  · have hbeq : (a.location == loc) = false := by simp [h]
    simp [countLoc, List.filter, hbeq, h]


/-- Helper: the group stage produces one pair per distinct location, with
pairwise-distinct keys, each carrying the exact number of documents at
that location, and covering every document's location. -/
theorem groupByLocation_spec (coll : List Asset) :
    keysDistinct (groupByLocation coll) ∧
    (∀ loc, getCnt (groupByLocation coll) loc = countLoc coll loc) ∧
    (∀ p ∈ groupByLocation coll, 0 < p.2) ∧
    (∀ a ∈ coll, ∃ p ∈ groupByLocation coll, p.1 = a.location) := by
  induction coll with
  | nil =>
    refine ⟨by simp [groupByLocation, keysDistinct], fun loc => ?_, by simp [groupByLocation], by simp⟩
    simp [groupByLocation, getCnt, countLoc, List.find?]
  | cons a rest ih =>
    obtain ⟨ih1, ih2, ih3, ih4⟩ := ih
    refine ⟨keysDistinct_bump _ _ ih1, ?_, bump_pos _ _ ih3, ?_⟩
    · intro loc
      rw [countLoc_cons]
      by_cases hloc : loc = a.location
      · subst hloc
        simp only [groupByLocation, getCnt_bump_self, ih2, if_pos rfl]
        simp
      · simp only [groupByLocation, getCnt_bump_ne _ _ _ hloc, ih2,
          if_neg (Ne.symm hloc), Nat.add_zero]
    · intro b hb
      rcases List.mem_cons.mp hb with rfl | hb
      · exact bump_mem_key _ _
      · obtain ⟨p, hp, hpk⟩ := ih4 b hb
        obtain ⟨q, hq, hqp⟩ := bump_mem_keep _ a.location p hp
        exact ⟨q, hq, by rw [hqp, hpk]⟩


/-- Helper: sorted insertion is a permutation of consing. -/
theorem perm_insertCountDesc (p : String × Nat) (l : List (String × Nat)) :
    List.Perm (insertCountDesc p l) (p :: l) := by
  induction l with
  | nil => simp [insertCountDesc]
  | cons q rest ih =>
    by_cases hq : q.2 ≤ p.2
    · simp [insertCountDesc, hq]
    · simp only [insertCountDesc, if_neg hq]
      exact (ih.cons q).trans (List.Perm.swap p q rest)


/-- Helper: the sort stage permutes its input. -/
theorem perm_sortCountDesc (l : List (String × Nat)) :
    List.Perm (sortCountDesc l) l := by
  induction l with
  | nil => simp [sortCountDesc]
  | cons p rest ih =>
    exact (perm_insertCountDesc p (sortCountDesc rest)).trans (ih.cons p)


/-- Helper: sorted insertion preserves descending count order. -/
theorem descByCount_insert (p : String × Nat) (l : List (String × Nat))
    (h : descByCount l) : descByCount (insertCountDesc p l) := by
  induction l with
  | nil => simp [insertCountDesc, descByCount]
  | cons q rest ih =>
    obtain ⟨h1, h2⟩ := List.pairwise_cons.mp h
    by_cases hq : q.2 ≤ p.2
    · simp only [insertCountDesc, if_pos hq, descByCount]
      refine List.pairwise_cons.mpr ⟨?_, h⟩
      intro r hr
      rcases List.mem_cons.mp hr with rfl | hr
      · exact hq
      · exact Nat.le_trans (h1 r hr) hq
    · simp only [insertCountDesc, if_neg hq, descByCount]
      refine List.pairwise_cons.mpr ⟨?_, ih h2⟩
      intro r hr
      rcases (perm_insertCountDesc p rest).mem_iff.mp hr with hr2
      rcases List.mem_cons.mp hr2 with rfl | hr2
      · exact Nat.le_of_lt (Nat.lt_of_not_le hq)
      · exact h1 r hr2


/-- Helper: the sort stage always yields descending count order. -/
theorem descByCount_sort (l : List (String × Nat)) :
    descByCount (sortCountDesc l) := by
  induction l with
  | nil => simp [sortCountDesc, descByCount]
  | cons p rest ih => exact descByCount_insert p (sortCountDesc rest) ih


/-- C9: the aggregation groups all documents by location into pairs of a
location and its exact document count (one pair per occupied location,
all counts positive) sorted descending by count; and over a collection
holding assets at locations A three times and B once it returns exactly
the pairs (A,3),(B,1) in that order. -/
theorem C9_count_by_location :
    (∀ coll out, contar_bens_por_localizacao coll false = .ok out →
       descByCount out.1 ∧
       (∀ p ∈ out.1, p.2 = countLoc coll p.1 ∧ 0 < p.2) ∧
       (∀ a ∈ coll, ∃ p ∈ out.1, p.1 = a.location)) ∧
    contar_bens_por_localizacao
        [assetAt "1" "A", assetAt "2" "A", assetAt "3" "B", assetAt "4" "A"] false =
      .ok ⟨[("A", 3), ("B", 1)], [Msg.aggLine "A" 3, Msg.aggLine "B" 1]⟩ := by
  constructor
  · intro coll out hout
    obtain ⟨hdist, hcnt, hpos, hkeys⟩ := groupByLocation_spec coll
    have hperm := perm_sortCountDesc (groupByLocation coll)
    simp only [contar_bens_por_localizacao, Bool.false_eq_true, if_false] at hout
    split_ifs at hout with hemp
    · simp only [Except.ok.injEq] at hout
      subst hout
      have hnil : groupByLocation coll = [] := by
        have := List.isEmpty_iff.mp hemp
        exact hperm.symm.trans (this ▸ List.Perm.refl _) |>.eq_nil
      refine ⟨by simp [descByCount], by simp, ?_⟩
      intro a ha
      obtain ⟨p, hp, _⟩ := hkeys a ha
      rw [hnil] at hp
      simp at hp
    · simp only [Except.ok.injEq] at hout
      subst hout
      refine ⟨descByCount_sort _, ?_, ?_⟩
      · intro p hp
        have hpg : p ∈ groupByLocation coll := hperm.mem_iff.mp hp
        refine ⟨?_, hpos p hpg⟩
        rw [getCnt_mem _ hdist p hpg, hcnt]
      · intro a ha
        obtain ⟨p, hp, hpk⟩ := hkeys a ha
        exact ⟨p, hperm.mem_iff.mpr hp, hpk⟩
  · decide


/-- Witness for C9 applied to the concrete example collection. -/
theorem C9_count_by_location_witness :
    descByCount [("A", 3), ("B", 1)] ∧
    (∀ p ∈ [("A", (3 : Nat)), ("B", 1)],
      p.2 = countLoc [assetAt "1" "A", assetAt "2" "A", assetAt "3" "B", assetAt "4" "A"] p.1 ∧
      0 < p.2) ∧
    (∀ a ∈ [assetAt "1" "A", assetAt "2" "A", assetAt "3" "B", assetAt "4" "A"],
      ∃ p ∈ [("A", (3 : Nat)), ("B", 1)], p.1 = a.location) :=
  C9_count_by_location.1 [assetAt "1" "A", assetAt "2" "A", assetAt "3" "B", assetAt "4" "A"]
    ⟨[("A", 3), ("B", 1)], [Msg.aggLine "A" 3, Msg.aggLine "B" 1]⟩ (by decide)


/-- Helper: the digit-to-character map is injective on decimal digits. -/
theorem digitChar_inj_lt : ∀ d < 10, ∀ e < 10,
    Nat.digitChar d = Nat.digitChar e → d = e := by decide


/-- Helper: mapping the digit-to-character map over decimal digit lists
is injective. -/
theorem map_digitChar_inj : ∀ (l1 l2 : List Nat), (∀ d ∈ l1, d < 10) →
    (∀ d ∈ l2, d < 10) → l1.map Nat.digitChar = l2.map Nat.digitChar → l1 = l2
  | [], [], _, _, _ => rfl
  | [], _ :: _, _, _, h => by simp at h
  | _ :: _, [], _, _, h => by simp at h
  | a :: l1, b :: l2, h1, h2, h => by
    simp only [List.map_cons, List.cons.injEq] at h
    have hab := digitChar_inj_lt a (h1 a (by simp)) b (h2 b (by simp)) h.1
    have htl := map_digitChar_inj l1 l2 (fun d hd => h1 d (by simp [hd]))
      (fun d hd => h2 d (by simp [hd])) h.2
    rw [hab, htl]


/-- Helper: the decimal rendering is injective on positive naturals. -/
theorem natToDec_inj_pos (a b : Nat) (ha : a ≠ 0) (hb : b ≠ 0)
    (h : natToDec a = natToDec b) : a = b := by
  simp only [natToDec, if_neg ha, if_neg hb] at h
  have hmap := List.asString_inj.mp h
  have hrev : (Nat.digits 10 a).reverse = (Nat.digits 10 b).reverse :=
    map_digitChar_inj _ _
      (fun d hd => Nat.digits_lt_base (by norm_num) (List.mem_reverse.mp hd))
      (fun d hd => Nat.digits_lt_base (by norm_num) (List.mem_reverse.mp hd)) hmap
  have hdig : Nat.digits 10 a = Nat.digits 10 b := List.reverse_injective hrev
  have := congrArg (Nat.ofDigits 10) hdig
  rwa [Nat.ofDigits_digits, Nat.ofDigits_digits] at this


/-- Helper: the generated asset id determines the generated number. -/
theorem newAssetId_inj (a b : Nat) (ha : a ≠ 0) (hb : b ≠ 0)
    (h : "NEWASSET" ++ natToDec a = "NEWASSET" ++ natToDec b) : a = b := by
  apply natToDec_inj_pos a b ha hb
  have hd := congrArg String.data h
  simp only [String.data_append] at hd
  exact String.ext (List.append_cancel_left hd)


/-- C10: manual insert of k+1 documents on a collection of m documents
generates the asset ids NEWASSET(m+1) .. NEWASSET(m+k+1), which are
pairwise distinct, and appends the generated documents after the existing
ones: the document count is read while the collection is unchanged. -/
theorem C10_insert_ids (coll : List Asset) (k : Nat) :
    inserir_documento_extra coll (k + 1) false false =
      .ok ⟨coll ++ (List.range (k + 1)).map (newAssetDoc coll.length),
        [Msg.insertedExtra (k + 1)],
        (List.range (k + 1)).map (fun i => "NEWASSET" ++ natToDec (coll.length + 1 + i))⟩ ∧
    ((List.range (k + 1)).map
        (fun i => "NEWASSET" ++ natToDec (coll.length + 1 + i))).Nodup := by
  constructor
  · simp [inserir_documento_extra, List.map_map, newAssetDoc, Function.comp]
  · refine List.Nodup.map_on ?_ (List.nodup_range _)
    intro i hi j hj hij
    have := newAssetId_inj (coll.length + 1 + i) (coll.length + 1 + j)
      (by omega) (by omega) hij
    omega
